import Mathlib

/-!
Shallow embedding of the CrisisVault unlock/session core:
the rate limiter (`src/utils/security.ts`), the crypto helpers
(`src/utils/crypto.ts`) and the session store (`src/store/authStore.ts`).

Machine integers are modelled as `Nat` (byte values, millisecond
timestamps).  External platform primitives (Web Crypto PBKDF2 / HMAC /
AES-GCM, `JSON.stringify`, `atob`) are abstracted as oracle parameters;
every piece of control flow written in the repository itself is
translated directly.  A thrown JS exception is modelled as `none` /
`Except.error`.
-/

/-! ## SECURITY_CONFIG (src/utils/security.ts) -/

def MAX_UNLOCK_ATTEMPTS : Nat := 5
def LOCKOUT_BASE_MS : Nat := 15000
def LOCKOUT_MULTIPLIER : Nat := 2
def MAX_LOCKOUT_MS : Nat := 300000

/-! ## RateLimiter (src/utils/security.ts)

The mutable `RateLimiter` class is embedded as explicit state passing;
`Date.now()` becomes an explicit `now : Nat` argument. -/

structure RateLimitState where
  attempts : Nat
  lockedUntil : Nat
  lastAttempt : Nat
deriving DecidableEq, Repr

def rateLimitInit : RateLimitState := ⟨0, 0, 0⟩

def isLocked (s : RateLimitState) (now : Nat) : Bool :=
  now < s.lockedUntil

def getRemainingLockoutMs (s : RateLimitState) (now : Nat) : Nat :=
  s.lockedUntil - now

def getAttempts (s : RateLimitState) : Nat := s.attempts

def recordAttempt (s : RateLimitState) (now : Nat) : RateLimitState :=
  let attempts := s.attempts + 1
  let s1 : RateLimitState := { s with attempts := attempts, lastAttempt := now }
  if attempts ≥ MAX_UNLOCK_ATTEMPTS then
    let lockoutDuration :=
      min (LOCKOUT_BASE_MS * LOCKOUT_MULTIPLIER ^ (attempts - MAX_UNLOCK_ATTEMPTS))
          MAX_LOCKOUT_MS
    { s1 with lockedUntil := now + lockoutDuration }
  else s1

def rateLimitReset : RateLimitState := ⟨0, 0, 0⟩

/-! ## crypto.ts: hex decoding -/

def isHexDigit (c : Char) : Bool :=
  (('0' ≤ c) && (c ≤ '9')) || (('a' ≤ c) && (c ≤ 'f')) || (('A' ≤ c) && (c ≤ 'F'))

def hexDigitVal (c : Char) : Nat :=
  if ('0' ≤ c) && (c ≤ '9') then c.toNat - '0'.toNat
  else if ('a' ≤ c) && (c ≤ 'f') then c.toNat - 'a'.toNat + 10
  else c.toNat - 'A'.toNat + 10

def hexPairsToBytes : List Char → List Nat
  | c1 :: c2 :: rest => (16 * hexDigitVal c1 + hexDigitVal c2) :: hexPairsToBytes rest
  | _ => []

/-- `hexToBuffer` from crypto.ts: throws (`none`) unless the string is
all hex digits with even length. -/
def hexToBuffer (hex : String) : Option (List Nat) :=
  if hex.data.all isHexDigit ∧ hex.data.length % 2 = 0 then
    some (hexPairsToBytes hex.data)
  else none

/-! ## crypto.ts: UTF-8 encoding (TextEncoder) -/

def utf8Bytes (c : Char) : List Nat :=
  let n := c.toNat
  if n < 0x80 then [n]
  else if n < 0x800 then [0xC0 ||| (n >>> 6), 0x80 ||| (n &&& 0x3F)]
  else if n < 0x10000 then
    [0xE0 ||| (n >>> 12), 0x80 ||| ((n >>> 6) &&& 0x3F), 0x80 ||| (n &&& 0x3F)]
  else
    [0xF0 ||| (n >>> 18), 0x80 ||| ((n >>> 12) &&& 0x3F),
     0x80 ||| ((n >>> 6) &&& 0x3F), 0x80 ||| (n &&& 0x3F)]

def strBytes (s : String) : List Nat :=
  (s.data.map utf8Bytes).flatten

/-! ## crypto.ts: key derivation

`crypto.subtle.deriveKey` is an external primitive; what the repository
controls is the derivation request it submits (algorithm, hash,
iteration count, salt bytes, derived-key algorithm and length).  A
`CryptoKey` is therefore embedded as that request record. -/

def ITERATIONS : Nat := 600000
def KEY_LENGTH : Nat := 256

structure KdfRequest where
  kdfAlgorithm : String
  hash : String
  iterations : Nat
  salt : List Nat
  passphrase : String
  keyAlgorithm : String
  keyLength : Nat
deriving DecidableEq, Repr

/-- `deriveKey` from crypto.ts (AES-GCM encryption key). -/
def deriveKey (passphrase : String) (saltHex : String) : Option KdfRequest :=
  (hexToBuffer saltHex).map fun salt =>
    ⟨"PBKDF2", "SHA-256", ITERATIONS, salt, passphrase, "AES-GCM", KEY_LENGTH⟩

/-- `deriveHmacKey` from crypto.ts: same passphrase and parameters, salt
XOR-ed bytewise with 0x5c. -/
def deriveHmacKey (passphrase : String) (saltHex : String) : Option KdfRequest :=
  (hexToBuffer saltHex).map fun salt =>
    ⟨"PBKDF2", "SHA-256", ITERATIONS, salt.map (fun b => b ^^^ 0x5c),
      passphrase, "HMAC", KEY_LENGTH⟩

/-! ## crypto.ts: verifyHmac

The HMAC-SHA256 computation itself (`crypto.subtle.sign`) is abstracted
as `sign`; the length check and the XOR-accumulate comparison loop are
translated directly. -/

def verifyHmac (sign : List Nat → List Nat) (data : String)
    (expectedHmacHex : String) : Option Bool :=
  match hexToBuffer expectedHmacHex with
  | none => none
  | some expectedHmac =>
    let dataBuffer := strBytes data
    let signatureArray := sign dataBuffer
    if signatureArray.length ≠ expectedHmac.length then some false
    else
      some (((signatureArray.zip expectedHmac).foldl
        (fun r p => r ||| (p.1 ^^^ p.2)) 0) == 0)

/-! ## crypto.ts: secureWipeBuffer

`crypto.getRandomValues(buffer)` overwrites each cell with a random
byte (abstracted as `rng` applied to the cell index, length preserved
by construction), then `buffer.fill(0)` zeroes every cell. -/

def getRandomValues (rng : Nat → Nat) (buffer : List Nat) : List Nat :=
  (List.range buffer.length).map rng

def secureWipeBuffer (rng : Nat → Nat) (buffer : List Nat) : List Nat :=
  if 0 < buffer.length then
    (getRandomValues rng buffer).map (fun _ => 0)
  else buffer

/-! ## authStore.ts: data model -/

structure VaultFile where
  id : String
  title : String
  priority : Option String
  tags : Option (List String)
  iv : String
  data : String
deriving DecidableEq, Repr

structure VaultManifest where
  salt : String
  hmac : Option String
  generatedAt : String
  files : List VaultFile
deriving DecidableEq, Repr

structure DecryptedFile where
  id : String
  title : String
  priority : Option String
  tags : Option (List String)
  content : String
deriving DecidableEq, Repr

inductive AuthError where
  | INVALID_PASSPHRASE
  | RATE_LIMITED
  | INTEGRITY_FAILURE
  | VAULT_EMPTY
deriving DecidableEq, Repr

/-- `getErrorMessage` from authStore.ts (`null` is `none`). -/
def getErrorMessage : Option AuthError → String
  | some AuthError.INVALID_PASSPHRASE => "Access denied"
  | some AuthError.RATE_LIMITED => "Too many attempts. Please wait."
  | some AuthError.INTEGRITY_FAILURE => "Vault integrity check failed"
  | some AuthError.VAULT_EMPTY => "No vault data available"
  | none => ""

structure AuthState where
  isUnlocked : Bool
  masterKey : Option KdfRequest
  decryptedFiles : List DecryptedFile
  error : Option AuthError
  errorMessage : String
  isDecrypting : Bool
  lockoutRemainingMs : Nat
deriving DecidableEq, Repr

def authInit : AuthState :=
  ⟨false, none, [], none, "", false, 0⟩

/-- The zustand store together with the module-level `globalRateLimiter`. -/
structure SystemState where
  auth : AuthState
  limiter : RateLimitState
deriving DecidableEq, Repr

def systemInit : SystemState := ⟨authInit, rateLimitInit⟩

/-! ## External crypto/platform primitives used by the store -/

structure CryptoOracle where
  /-- `JSON.stringify(vaultData.files)` -/
  stringifyFiles : List VaultFile → String
  /-- `crypto.subtle.sign('HMAC', key, data)` -/
  hmacSign : KdfRequest → List Nat → List Nat
  /-- `atob` base64 decoding; `none` = throw -/
  atob : String → Option (List Nat)
  /-- `crypto.subtle.decrypt` (AES-GCM, key, iv, ciphertext);
      `none` = authentication failure / throw -/
  aesDecrypt : KdfRequest → List Nat → List Nat → Option (List Nat)
  /-- `TextDecoder().decode` -/
  utf8Decode : List Nat → String

/-- `decryptData` from crypto.ts: hex-decode the iv, base64-decode the
payload, AES-GCM-decrypt, UTF-8-decode.  `none` = throw. -/
def decryptData (o : CryptoOracle) (key : KdfRequest)
    (ivHex : String) (encryptedBase64 : String) : Option String :=
  match hexToBuffer ivHex with
  | none => none
  | some iv =>
    match o.atob encryptedBase64 with
    | none => none
    | some encryptedData =>
      match o.aesDecrypt key iv encryptedData with
      | none => none
      | some decryptedBuffer => some (o.utf8Decode decryptedBuffer)

/-- `verifyVaultIntegrity` from authStore.ts.  A thrown exception
(`Except.error`) propagates to `unlock`'s catch handler. -/
def verifyVaultIntegrity (o : CryptoOracle) (vaultData : VaultManifest)
    (passphrase : String) : Except Unit Bool :=
  match vaultData.hmac with
  | none => Except.ok true
  | some hmacHex =>
    match deriveHmacKey passphrase vaultData.salt with
    | none => Except.error ()
    | some hmacKey =>
      match verifyHmac (o.hmacSign hmacKey)
          (o.stringifyFiles vaultData.files) hmacHex with
      | none => Except.error ()
      | some b => Except.ok b

/-- The `for (const file of vaultData.files)` loop of `unlock`: decrypt
in manifest order, pushing results; any throw aborts the whole loop. -/
def decryptAll (o : CryptoOracle) (key : KdfRequest) :
    List VaultFile → Option (List DecryptedFile)
  | [] => some []
  | f :: rest =>
    match decryptData o key f.iv f.data with
    | none => none
    | some content =>
      (decryptAll o key rest).map
        (fun ds => ⟨f.id, f.title, f.priority, f.tags, content⟩ :: ds)

/-- The `catch` handler of `unlock` in authStore.ts. -/
def unlockCatch (s : SystemState) (a1 : AuthState) (now : Nat) : SystemState :=
  let limiter := recordAttempt s.limiter now
  { auth := { a1 with
      error := some AuthError.INVALID_PASSPHRASE,
      errorMessage := getErrorMessage (some AuthError.INVALID_PASSPHRASE),
      isDecrypting := false,
      masterKey := none,
      lockoutRemainingMs := getRemainingLockoutMs limiter now },
    limiter := limiter }

/-- `unlock` from authStore.ts as a state transition.  `Date.now()` is
the explicit `now`; the async awaits are sequenced in program order. -/
def unlock (o : CryptoOracle) (vaultData : VaultManifest) (now : Nat)
    (passphrase : String) (s : SystemState) : SystemState :=
  if isLocked s.limiter now then
    { s with auth := { s.auth with
        error := some AuthError.RATE_LIMITED,
        errorMessage := getErrorMessage (some AuthError.RATE_LIMITED),
        lockoutRemainingMs := getRemainingLockoutMs s.limiter now } }
  else
    let a1 := { s.auth with isDecrypting := true, error := none, errorMessage := "" }
    if vaultData.salt = "" ∨ vaultData.files = [] then
      { s with auth := { a1 with
          error := some AuthError.VAULT_EMPTY,
          errorMessage := getErrorMessage (some AuthError.VAULT_EMPTY),
          isDecrypting := false } }
    else
      match verifyVaultIntegrity o vaultData passphrase with
      | Except.error _ => unlockCatch s a1 now
      | Except.ok false =>
        let limiter := recordAttempt s.limiter now
        { auth := { a1 with
            error := some AuthError.INTEGRITY_FAILURE,
            errorMessage := getErrorMessage (some AuthError.INTEGRITY_FAILURE),
            isDecrypting := false,
            lockoutRemainingMs := getRemainingLockoutMs limiter now },
          limiter := limiter }
      | Except.ok true =>
        match deriveKey passphrase vaultData.salt with
        | none => unlockCatch s a1 now
        | some key =>
          match decryptAll o key vaultData.files with
          | none => unlockCatch s a1 now
          | some decrypted =>
            { auth := { a1 with
                isUnlocked := true,
                masterKey := some key,
                decryptedFiles := decrypted,
                isDecrypting := false,
                error := none,
                errorMessage := "" },
              limiter := rateLimitReset }

/-- `wipe` from authStore.ts.  The per-file `secureWipeBuffer` calls act
on freshly encoded copies of the contents and have no effect on any
state field; the `set` clears the session fields listed below and
leaves `lockoutRemainingMs` and the rate limiter untouched. -/
def wipe (s : SystemState) : SystemState :=
  { s with auth := { s.auth with
      isUnlocked := false,
      masterKey := none,
      decryptedFiles := [],
      error := none,
      errorMessage := "",
      isDecrypting := false } }

/-- The guard in `UnlockScreen.handleSubmit`
(`if (!passphrase || isDecrypting || displayLockout > 0) return;`):
whether the UI submit handler invokes `unlock` at all. -/
def handleSubmitInvokesUnlock (passphrase : String) (isDecrypting : Bool)
    (displayLockout : Nat) : Bool :=
  !(passphrase.isEmpty || isDecrypting || decide (0 < displayLockout))

/-! ## Concrete fixtures used by witnesses and counterexamples -/

/-- Oracle whose AES-GCM decryption always throws (wrong passphrase /
tag mismatch) and whose HMAC digest is the single byte 1. -/
def oracleFail : CryptoOracle :=
  ⟨fun _ => "", fun _ _ => [1], fun _ => some [], fun _ _ _ => none, fun _ => ""⟩

/-- Oracle whose AES-GCM decryption always succeeds. -/
def oracleOk : CryptoOracle :=
  ⟨fun _ => "", fun _ _ => [1], fun _ => some [], fun _ _ _ => some [], fun _ => "hi"⟩

def file0 : VaultFile := ⟨"f1", "T", none, none, "bb", "x"⟩

/-- Manifest with valid salt and no hmac field. -/
def manifestPlain : VaultManifest := ⟨"aa", none, "", [file0]⟩

/-- Manifest whose salt is not valid hex. -/
def manifestBadSalt : VaultManifest := ⟨"zz", none, "", [file0]⟩

/-- Manifest carrying an hmac digest (byte 0). -/
def manifestHmac : VaultManifest := ⟨"aa", some "00", "", [file0]⟩

def keyPlain : KdfRequest :=
  ⟨"PBKDF2", "SHA-256", 600000, [170], "pw", "AES-GCM", 256⟩

/-- A session with an unlock attempt outstanding. -/
def busyState : SystemState := ⟨{ authInit with isDecrypting := true }, rateLimitInit⟩

/-! ## Helper lemmas -/

lemma lor_eq_zero_iff (a b : Nat) : a ||| b = 0 ↔ a = 0 ∧ b = 0 := by
  constructor
  · intro h
    constructor
    · apply Nat.eq_of_testBit_eq
      intro i
      have hb := congrArg (fun x => Nat.testBit x i) h
      simp [Nat.testBit_lor] at hb
      simp [hb.1]
    · apply Nat.eq_of_testBit_eq
      intro i
      have hb := congrArg (fun x => Nat.testBit x i) h
      simp [Nat.testBit_lor] at hb
      simp [hb.2]
  · rintro ⟨rfl, rfl⟩
    rfl

lemma foldl_lor_xor_eq_zero (l : List (Nat × Nat)) (acc : Nat) :
    (l.foldl (fun r p => r ||| (p.1 ^^^ p.2)) acc = 0) ↔
      (acc = 0 ∧ ∀ p ∈ l, p.1 = p.2) := by
  induction l generalizing acc with
  | nil => simp
  | cons hd tl ih =>
    simp only [List.foldl_cons, ih, lor_eq_zero_iff, Nat.xor_eq_zero,
      List.forall_mem_cons]
    tauto

lemma zip_forall_eq :
    ∀ (a b : List Nat), a.length = b.length →
      ((∀ p ∈ a.zip b, p.1 = p.2) ↔ a = b)
  | [], [], _ => by simp
  | [], _ :: _, h => by simp at h
  | _ :: _, [], h => by simp at h
  | a :: as, b :: bs, h => by
    have ih := zip_forall_eq as bs (by simpa using h)
    simp only [List.zip_cons_cons, List.forall_mem_cons, List.cons.injEq]
    constructor
    · rintro ⟨h1, h2⟩
      exact ⟨h1, (ih.mp h2)⟩
    · rintro ⟨h1, h2⟩
      exact ⟨h1, ih.mpr h2⟩

lemma recordAttempt_attempts (s : RateLimitState) (now : Nat) :
    (recordAttempt s now).attempts = s.attempts + 1 := by
  simp only [recordAttempt]
  split <;> rfl

lemma decryptAll_none_iff (o : CryptoOracle) (key : KdfRequest) :
    ∀ fs : List VaultFile,
      (decryptAll o key fs = none ↔
        ∃ f ∈ fs, decryptData o key f.iv f.data = none) := by
  intro fs
  induction fs with
  | nil => simp [decryptAll]
  | cons f rest ih =>
    cases h : decryptData o key f.iv f.data with
    | none => simp [decryptAll, h]
    | some c =>
      simp [decryptAll, h, Option.map_eq_none', ih]

lemma decryptAll_some_spec (o : CryptoOracle) (key : KdfRequest) :
    ∀ (fs : List VaultFile) (ds : List DecryptedFile),
      decryptAll o key fs = some ds →
        ds.map DecryptedFile.id = fs.map VaultFile.id ∧
        ∀ q ∈ fs.zip ds, decryptData o key q.1.iv q.1.data = some q.2.content := by
  intro fs
  induction fs with
  | nil =>
    intro ds h
    simp [decryptAll] at h
    simp [← h]
  | cons f rest ih =>
    intro ds h
    cases hd : decryptData o key f.iv f.data with
    | none => simp [decryptAll, hd] at h
    | some c =>
      simp only [decryptAll, hd, Option.map_eq_some'] at h
      obtain ⟨tail, htail, rfl⟩ := h
      have ih2 := ih tail htail
      refine ⟨by simp [ih2.1], ?_⟩
      intro q hq
      rw [List.zip_cons_cons] at hq
      rcases List.mem_cons.mp hq with h1 | h2
      · subst h1
        exact hd
      · exact ih2.2 q h2

/-- The transient state set at the top of `unlock`'s try block. -/
def unlockPending (s : SystemState) : AuthState :=
  { s.auth with isDecrypting := true, error := none, errorMessage := "" }

lemma unlock_catch_of_integrity_err (o : CryptoOracle) (m : VaultManifest)
    (now : Nat) (p : String) (s : SystemState)
    (hlock : isLocked s.limiter now = false)
    (hne : ¬(m.salt = "" ∨ m.files = []))
    (hint : verifyVaultIntegrity o m p = Except.error ()) :
    unlock o m now p s = unlockCatch s (unlockPending s) now := by
  unfold unlock unlockPending
  rw [hlock]
  simp only [Bool.false_eq_true, if_false]
  rw [if_neg hne, hint]

lemma unlock_of_integrity_false (o : CryptoOracle) (m : VaultManifest)
    (now : Nat) (p : String) (s : SystemState)
    (hlock : isLocked s.limiter now = false)
    (hne : ¬(m.salt = "" ∨ m.files = []))
    (hint : verifyVaultIntegrity o m p = Except.ok false) :
    unlock o m now p s =
      { auth := { unlockPending s with
          error := some AuthError.INTEGRITY_FAILURE,
          errorMessage := getErrorMessage (some AuthError.INTEGRITY_FAILURE),
          isDecrypting := false,
          lockoutRemainingMs := getRemainingLockoutMs (recordAttempt s.limiter now) now },
        limiter := recordAttempt s.limiter now } := by
  unfold unlock unlockPending
  rw [hlock]
  simp only [Bool.false_eq_true, if_false]
  rw [if_neg hne, hint]

lemma unlock_catch_of_key_none (o : CryptoOracle) (m : VaultManifest)
    (now : Nat) (p : String) (s : SystemState)
    (hlock : isLocked s.limiter now = false)
    (hne : ¬(m.salt = "" ∨ m.files = []))
    (hint : verifyVaultIntegrity o m p = Except.ok true)
    (hkey : deriveKey p m.salt = none) :
    unlock o m now p s = unlockCatch s (unlockPending s) now := by
  unfold unlock unlockPending
  rw [hlock]
  simp only [Bool.false_eq_true, if_false]
  rw [if_neg hne, hint, hkey]

lemma unlock_catch_of_decrypt_none (o : CryptoOracle) (m : VaultManifest)
    (now : Nat) (p : String) (s : SystemState) (key : KdfRequest)
    (hlock : isLocked s.limiter now = false)
    (hne : ¬(m.salt = "" ∨ m.files = []))
    (hint : verifyVaultIntegrity o m p = Except.ok true)
    (hkey : deriveKey p m.salt = some key)
    (hdec : decryptAll o key m.files = none) :
    unlock o m now p s = unlockCatch s (unlockPending s) now := by
  unfold unlock unlockPending
  rw [hlock]
  simp only [Bool.false_eq_true, if_false]
  rw [if_neg hne, hint, hkey]
  dsimp only
  rw [hdec]

lemma unlock_success_eq (o : CryptoOracle) (m : VaultManifest)
    (now : Nat) (p : String) (s : SystemState) (key : KdfRequest)
    (decrypted : List DecryptedFile)
    (hlock : isLocked s.limiter now = false)
    (hne : ¬(m.salt = "" ∨ m.files = []))
    (hint : verifyVaultIntegrity o m p = Except.ok true)
    (hkey : deriveKey p m.salt = some key)
    (hdec : decryptAll o key m.files = some decrypted) :
    unlock o m now p s =
      { auth := { unlockPending s with
          isUnlocked := true,
          masterKey := some key,
          decryptedFiles := decrypted,
          isDecrypting := false,
          error := none,
          errorMessage := "" },
        limiter := rateLimitReset } := by
  unfold unlock unlockPending
  rw [hlock]
  simp only [Bool.false_eq_true, if_false]
  rw [if_neg hne, hint, hkey]
  dsimp only
  rw [hdec]

lemma unlock_rate_limited_eq (o : CryptoOracle) (m : VaultManifest)
    (now : Nat) (p : String) (s : SystemState)
    (hlock : isLocked s.limiter now = true) :
    unlock o m now p s =
      { s with auth := { s.auth with
          error := some AuthError.RATE_LIMITED,
          errorMessage := getErrorMessage (some AuthError.RATE_LIMITED),
          lockoutRemainingMs := getRemainingLockoutMs s.limiter now } } := by
  unfold unlock
  rw [hlock]
  simp only [if_true]

lemma unlock_vault_empty_eq (o : CryptoOracle) (m : VaultManifest)
    (now : Nat) (p : String) (s : SystemState)
    (hlock : isLocked s.limiter now = false)
    (hne : m.salt = "" ∨ m.files = []) :
    unlock o m now p s =
      { s with auth := { unlockPending s with
          error := some AuthError.VAULT_EMPTY,
          errorMessage := getErrorMessage (some AuthError.VAULT_EMPTY),
          isDecrypting := false } } := by
  unfold unlock unlockPending
  rw [hlock]
  simp only [Bool.false_eq_true, if_false]
  rw [if_pos hne]

deriving instance DecidableEq for Except

/-! ## Claim theorems -/

/-- C5: on the nth recorded failure with n = attempts + 1 ≥ 5,
`recordAttempt` sets a lockout of `min (15000 * 2 ^ (n - 5)) 300000`
milliseconds from the current time (so failures 5, 6, 7, … give 15s,
30s, 60s, … capped at 300s) and `isLocked` is true immediately; below
the threshold no lockout is set. -/
theorem recordAttempt_lockout (s : RateLimitState) (now : Nat) :
    (recordAttempt s now).attempts = s.attempts + 1 ∧
    (5 ≤ s.attempts + 1 →
      (recordAttempt s now).lockedUntil
        = now + min (15000 * 2 ^ (s.attempts + 1 - 5)) 300000 ∧
      isLocked (recordAttempt s now) now = true) ∧
    (s.attempts + 1 < 5 → (recordAttempt s now).lockedUntil = s.lockedUntil) := by
  refine ⟨recordAttempt_attempts s now, ?_, ?_⟩
  · intro h
    have hpos : 0 < min (15000 * 2 ^ (s.attempts + 1 - 5)) 300000 :=
      lt_min (by positivity) (by norm_num)
    simp only [recordAttempt, MAX_UNLOCK_ATTEMPTS, LOCKOUT_BASE_MS,
      LOCKOUT_MULTIPLIER, MAX_LOCKOUT_MS, ge_iff_le, if_pos h, isLocked,
      decide_eq_true_eq]
    exact ⟨by trivial, by omega⟩
  · intro h
    simp only [recordAttempt, MAX_UNLOCK_ATTEMPTS, ge_iff_le]
    rw [if_neg (by omega)]

theorem recordAttempt_lockout_witness :
    (recordAttempt ⟨4, 0, 0⟩ 1000).lockedUntil
      = 1000 + min (15000 * 2 ^ (4 + 1 - 5)) 300000 ∧
    isLocked (recordAttempt ⟨4, 0, 0⟩ 1000) 1000 = true :=
  (recordAttempt_lockout ⟨4, 0, 0⟩ 1000).2.1 (by norm_num)

/-- C7: `wipe` is idempotent and total over session states: from any
state it yields the locked state with empty decrypted files, cleared
key material and cleared error/decrypting flags, and it leaves the
rate-limiter state (attempts, lockedUntil, lastAttempt) and the
lockout display untouched. -/
theorem wipe_idempotent_frame (s : SystemState) :
    wipe (wipe s) = wipe s ∧
    (wipe s).auth.isUnlocked = false ∧
    (wipe s).auth.decryptedFiles = [] ∧
    (wipe s).auth.masterKey = none ∧
    (wipe s).auth.error = none ∧
    (wipe s).auth.errorMessage = "" ∧
    (wipe s).auth.isDecrypting = false ∧
    (wipe s).limiter = s.limiter ∧
    (wipe s).auth.lockoutRemainingMs = s.auth.lockoutRemainingMs :=
  ⟨rfl, rfl, rfl, rfl, rfl, rfl, rfl, rfl, rfl⟩

/-- C10: `secureWipeBuffer` leaves every byte of the buffer zero
(random overwrite followed by zero fill), preserves the length, and
leaves an empty buffer unchanged without error. -/
theorem secureWipeBuffer_zeroes (rng : Nat → Nat) (buffer : List Nat) :
    secureWipeBuffer rng buffer = List.replicate buffer.length 0 ∧
    secureWipeBuffer rng [] = [] := by
  constructor
  · unfold secureWipeBuffer getRandomValues
    by_cases h : 0 < buffer.length
    · rw [if_pos h]
      refine List.eq_replicate_iff.mpr ⟨by simp, by simp⟩
    · rw [if_neg h]
      have hz : buffer.length = 0 := by omega
      rw [List.length_eq_zero] at hz
      simp [hz]
  · rfl

/-- C9: the integrity-key derivation uses the base salt with every
byte XOR-ed with 0x5C, and both derivations submit PBKDF2 with
SHA-256, 600000 iterations and a 256-bit derived key, from the same
passphrase. -/
theorem deriveHmacKey_domain_sep (p saltHex : String) (salt : List Nat)
    (h : hexToBuffer saltHex = some salt) :
    deriveKey p saltHex =
      some ⟨"PBKDF2", "SHA-256", 600000, salt, p, "AES-GCM", 256⟩ ∧
    deriveHmacKey p saltHex =
      some ⟨"PBKDF2", "SHA-256", 600000, salt.map (fun b => b ^^^ 0x5c),
        p, "HMAC", 256⟩ := by
  simp [deriveKey, deriveHmacKey, h, ITERATIONS, KEY_LENGTH]

theorem deriveHmacKey_domain_sep_witness :
    hexToBuffer "aa" = some [170] ∧
    deriveKey "pw" "aa"
      = some ⟨"PBKDF2", "SHA-256", 600000, [170], "pw", "AES-GCM", 256⟩ ∧
    deriveHmacKey "pw" "aa"
      = some ⟨"PBKDF2", "SHA-256", 600000, [170].map (fun b => b ^^^ 0x5c),
          "pw", "HMAC", 256⟩ := by
  have h := deriveHmacKey_domain_sep "pw" "aa" [170] (by decide)
  exact ⟨by decide, h.1, h.2⟩

/-- C8: `verifyHmac` returns true exactly when the computed digest has
the expected length and is bytewise equal to the expected digest
(length check followed by an XOR-accumulate over all bytes, as in the
definition of `verifyHmac`); and when a manifest carries no hmac field,
`verifyVaultIntegrity` trivially passes. -/
theorem verifyHmac_constant_time_eq (sign : List Nat → List Nat)
    (data : String) (hex : String) (expected : List Nat)
    (h : hexToBuffer hex = some expected)
    (o : CryptoOracle) (m : VaultManifest) (p : String)
    (hm : m.hmac = none) :
    (verifyHmac sign data hex = some true ↔ sign (strBytes data) = expected) ∧
    verifyVaultIntegrity o m p = Except.ok true := by
  constructor
  · simp only [verifyHmac, h]
    by_cases hl : (sign (strBytes data)).length = expected.length
    · rw [if_neg (by simpa using hl)]
      simp only [Option.some.injEq, beq_iff_eq]
      rw [foldl_lor_xor_eq_zero]
      simp only [true_and]
      exact zip_forall_eq _ _ hl
    · rw [if_pos (by simpa using hl)]
      simp only [Option.some.injEq, Bool.false_eq_true, false_iff]
      intro he
      exact hl (by rw [he])
  · simp [verifyVaultIntegrity, hm]

theorem verifyHmac_constant_time_eq_witness :
    hexToBuffer "ab" = some [171] ∧
    (verifyHmac (fun _ => [171]) "" "ab" = some true ↔
      (fun _ : List Nat => [171]) (strBytes "") = [171]) ∧
    verifyVaultIntegrity oracleFail manifestPlain "pw" = Except.ok true := by
  have h := verifyHmac_constant_time_eq (fun _ => [171]) "" "ab" [171]
    (by decide) oracleFail manifestPlain "pw" (by decide)
  exact ⟨by decide, h.1, h.2⟩

/-- C1 (counterexample to the claim as stated): an integrity failure
and a decrypt failure carry the same rate-limit penalty (one recorded
attempt each) but are presented with different user-facing messages. -/
theorem unlock_failure_message_cex :
    (unlock oracleFail manifestHmac 0 "pw" systemInit).limiter.attempts = 1 ∧
    (unlock oracleFail manifestPlain 0 "pw" systemInit).limiter.attempts = 1 ∧
    (unlock oracleFail manifestHmac 0 "pw" systemInit).auth.errorMessage ≠
      (unlock oracleFail manifestPlain 0 "pw" systemInit).auth.errorMessage := by
  decide

/-- C1 (amended): an integrity-verification failure and a decrypt
(wrong-passphrase) failure incur the same rate-limit penalty — exactly
one `recordAttempt` each — but are surfaced with distinct error kinds
and distinct user-facing messages. -/
theorem unlock_failure_penalty (o : CryptoOracle) (m : VaultManifest)
    (now : Nat) (p : String) (s : SystemState)
    (hlock : isLocked s.limiter now = false)
    (hne : ¬(m.salt = "" ∨ m.files = [])) :
    (verifyVaultIntegrity o m p = Except.ok false →
       (unlock o m now p s).limiter = recordAttempt s.limiter now ∧
       (unlock o m now p s).auth.error = some AuthError.INTEGRITY_FAILURE ∧
       (unlock o m now p s).auth.errorMessage
         = getErrorMessage (some AuthError.INTEGRITY_FAILURE)) ∧
    (∀ key, verifyVaultIntegrity o m p = Except.ok true →
       deriveKey p m.salt = some key →
       decryptAll o key m.files = none →
       (unlock o m now p s).limiter = recordAttempt s.limiter now ∧
       (unlock o m now p s).auth.error = some AuthError.INVALID_PASSPHRASE ∧
       (unlock o m now p s).auth.errorMessage
         = getErrorMessage (some AuthError.INVALID_PASSPHRASE)) ∧
    getErrorMessage (some AuthError.INTEGRITY_FAILURE)
      ≠ getErrorMessage (some AuthError.INVALID_PASSPHRASE) := by
  refine ⟨?_, ?_, by decide⟩
  · intro hint
    rw [unlock_of_integrity_false o m now p s hlock hne hint]
    exact ⟨rfl, rfl, rfl⟩
  · intro key hint hkey hdec
    rw [unlock_catch_of_decrypt_none o m now p s key hlock hne hint hkey hdec]
    exact ⟨rfl, rfl, rfl⟩

theorem unlock_failure_penalty_witness :
    (unlock oracleFail manifestHmac 0 "pw" systemInit).limiter
      = recordAttempt rateLimitInit 0 ∧
    (unlock oracleFail manifestHmac 0 "pw" systemInit).auth.errorMessage
      = getErrorMessage (some AuthError.INTEGRITY_FAILURE) ∧
    getErrorMessage (some AuthError.INTEGRITY_FAILURE)
      ≠ getErrorMessage (some AuthError.INVALID_PASSPHRASE) := by
  have h := unlock_failure_penalty oracleFail manifestHmac 0 "pw" systemInit
    (by decide) (by decide)
  have hint : verifyVaultIntegrity oracleFail manifestHmac "pw"
      = Except.ok false := by decide
  exact ⟨(h.1 hint).1, (h.1 hint).2.2, h.2.2⟩

/-- C2 (counterexample to the claim as stated): a manifest whose salt
has an invalid hex encoding makes unlock fail with
`INVALID_PASSPHRASE` (there is no MalformedManifest error kind) and
the failure does increment the rate-limiter attempt count. -/
theorem unlock_malformed_salt_cex :
    (unlock oracleFail manifestBadSalt 0 "pw" systemInit).limiter.attempts = 1 ∧
    (unlock oracleFail manifestBadSalt 0 "pw" systemInit).auth.error
      = some AuthError.INVALID_PASSPHRASE := by
  decide

/-- C2 (amended): for every manifest whose salt has an invalid hex
encoding, unlock fails deterministically before any key-derivation
request is ever formed (`deriveKey` and `deriveHmacKey` both throw on
the salt), but the failure is surfaced as `INVALID_PASSPHRASE` via the
catch-all handler and records exactly one rate-limiter attempt. -/
theorem unlock_malformed_salt (o : CryptoOracle) (m : VaultManifest)
    (now : Nat) (p : String) (s : SystemState)
    (hlock : isLocked s.limiter now = false)
    (hne : ¬(m.salt = "" ∨ m.files = []))
    (hbad : hexToBuffer m.salt = none) :
    (unlock o m now p s).auth.error = some AuthError.INVALID_PASSPHRASE ∧
    (unlock o m now p s).limiter = recordAttempt s.limiter now ∧
    deriveKey p m.salt = none ∧
    deriveHmacKey p m.salt = none := by
  have hk : deriveKey p m.salt = none := by simp [deriveKey, hbad]
  have hh : deriveHmacKey p m.salt = none := by simp [deriveHmacKey, hbad]
  cases hm : m.hmac with
  | none =>
    have hint : verifyVaultIntegrity o m p = Except.ok true := by
      simp [verifyVaultIntegrity, hm]
    rw [unlock_catch_of_key_none o m now p s hlock hne hint hk]
    exact ⟨rfl, rfl, hk, hh⟩
  | some hx =>
    have hint : verifyVaultIntegrity o m p = Except.error () := by
      simp [verifyVaultIntegrity, hm, hh]
    rw [unlock_catch_of_integrity_err o m now p s hlock hne hint]
    exact ⟨rfl, rfl, hk, hh⟩

theorem unlock_malformed_salt_witness :
    (unlock oracleFail manifestBadSalt 0 "pw" systemInit).auth.error
      = some AuthError.INVALID_PASSPHRASE ∧
    (unlock oracleFail manifestBadSalt 0 "pw" systemInit).limiter
      = recordAttempt rateLimitInit 0 ∧
    deriveKey "pw" "zz" = none ∧
    deriveHmacKey "pw" "zz" = none := by
  have h := unlock_malformed_salt oracleFail manifestBadSalt 0 "pw" systemInit
    (by decide) (by decide) (by decide)
  exact h

/-- C3 (counterexample to the claim as stated): with an unlock attempt
outstanding (`isDecrypting = true`), a second call to the store's
`unlock` does not return early: it proceeds to a full attempt — here
it completes an unlock (and, with a failing decryption, records a
rate-limiter attempt), mutating the session state. -/
theorem unlock_no_inflight_guard_cex :
    busyState.auth.isDecrypting = true ∧
    (unlock oracleOk manifestPlain 0 "pw" busyState).auth.isUnlocked = true ∧
    (unlock oracleOk manifestPlain 0 "pw" busyState).auth.decryptedFiles ≠ [] ∧
    (unlock oracleFail manifestPlain 0 "pw" busyState).limiter.attempts
      = busyState.limiter.attempts + 1 := by
  decide

/-- C3 (amended): the store's `unlock` performs no `isDecrypting`
check; re-initiation while an unlock attempt is outstanding is
prevented only at the UI layer, whose submit handler never invokes
`unlock` while `isDecrypting` is true. -/
theorem handleSubmit_blocks_while_decrypting (p : String) (d : Nat) :
    handleSubmitInvokesUnlock p true d = false := by
  simp [handleSubmitInvokesUnlock]

/-- C4: unlock is all-or-nothing. Decryption fails as a whole exactly
when some document fails to decrypt; in that case exactly one
rate-limiter attempt is recorded, the error is `INVALID_PASSPHRASE`
and a session that was locked with no decrypted documents stays that
way; when every document decrypts, the session becomes unlocked with
all documents populated in manifest order. -/
theorem unlock_all_or_nothing (o : CryptoOracle) (m : VaultManifest)
    (now : Nat) (p : String) (s : SystemState) (key : KdfRequest)
    (hlock : isLocked s.limiter now = false)
    (hne : ¬(m.salt = "" ∨ m.files = []))
    (hint : verifyVaultIntegrity o m p = Except.ok true)
    (hkey : deriveKey p m.salt = some key)
    (hU : s.auth.isUnlocked = false)
    (hD : s.auth.decryptedFiles = []) :
    (decryptAll o key m.files = none ↔
       ∃ f ∈ m.files, decryptData o key f.iv f.data = none) ∧
    (decryptAll o key m.files = none →
       (unlock o m now p s).limiter.attempts = s.limiter.attempts + 1 ∧
       (unlock o m now p s).auth.error = some AuthError.INVALID_PASSPHRASE ∧
       (unlock o m now p s).auth.isUnlocked = false ∧
       (unlock o m now p s).auth.decryptedFiles = []) ∧
    (∀ ds, decryptAll o key m.files = some ds →
       (unlock o m now p s).auth.isUnlocked = true ∧
       (unlock o m now p s).auth.decryptedFiles = ds ∧
       ds.map DecryptedFile.id = m.files.map VaultFile.id ∧
       ∀ q ∈ m.files.zip ds,
         decryptData o key q.1.iv q.1.data = some q.2.content) := by
  refine ⟨decryptAll_none_iff o key m.files, ?_, ?_⟩
  · intro hdec
    rw [unlock_catch_of_decrypt_none o m now p s key hlock hne hint hkey hdec]
    refine ⟨?_, rfl, ?_, ?_⟩
    · simp [unlockCatch, recordAttempt_attempts]
    · simp [unlockCatch, unlockPending, hU]
    · simp [unlockCatch, unlockPending, hD]
  · intro ds hdec
    rw [unlock_success_eq o m now p s key ds hlock hne hint hkey hdec]
    have hs := decryptAll_some_spec o key m.files ds hdec
    exact ⟨rfl, rfl, hs.1, hs.2⟩

theorem unlock_all_or_nothing_witness :
    (unlock oracleFail manifestPlain 0 "pw" systemInit).limiter.attempts = 1 ∧
    (unlock oracleFail manifestPlain 0 "pw" systemInit).auth.error
      = some AuthError.INVALID_PASSPHRASE ∧
    (unlock oracleFail manifestPlain 0 "pw" systemInit).auth.isUnlocked = false ∧
    (unlock oracleFail manifestPlain 0 "pw" systemInit).auth.decryptedFiles = [] := by
  have h := unlock_all_or_nothing oracleFail manifestPlain 0 "pw" systemInit
    keyPlain (by decide) (by decide) (by decide) (by decide) (by decide) (by decide)
  have hdec : decryptAll oracleFail keyPlain manifestPlain.files = none := by decide
  have h2 := h.2.1 hdec
  exact ⟨h2.1, h2.2.1, h2.2.2.1, h2.2.2.2⟩

lemma unlock_limiter_cases (o : CryptoOracle) (m : VaultManifest)
    (now : Nat) (p : String) (s : SystemState) :
    ((unlock o m now p s).limiter = s.limiter ∧
      (unlock o m now p s).auth.isUnlocked = s.auth.isUnlocked) ∨
    ((unlock o m now p s).limiter = recordAttempt s.limiter now ∧
      (unlock o m now p s).auth.isUnlocked = s.auth.isUnlocked) ∨
    ((unlock o m now p s).limiter = rateLimitReset ∧
      (unlock o m now p s).auth.isUnlocked = true) := by
  cases hlock : isLocked s.limiter now with
  | true =>
    rw [unlock_rate_limited_eq o m now p s hlock]
    exact Or.inl ⟨rfl, rfl⟩
  | false =>
    by_cases hne : (m.salt = "" ∨ m.files = [])
    · rw [unlock_vault_empty_eq o m now p s hlock hne]
      exact Or.inl ⟨rfl, rfl⟩
    · cases hint : verifyVaultIntegrity o m p with
      | error e =>
        cases e
        rw [unlock_catch_of_integrity_err o m now p s hlock hne hint]
        exact Or.inr (Or.inl ⟨rfl, rfl⟩)
      | ok b =>
        cases b with
        | false =>
          rw [unlock_of_integrity_false o m now p s hlock hne hint]
          exact Or.inr (Or.inl ⟨rfl, rfl⟩)
        | true =>
          cases hkey : deriveKey p m.salt with
          | none =>
            rw [unlock_catch_of_key_none o m now p s hlock hne hint hkey]
            exact Or.inr (Or.inl ⟨rfl, rfl⟩)
          | some key =>
            cases hdec : decryptAll o key m.files with
            | none =>
              rw [unlock_catch_of_decrypt_none o m now p s key hlock hne hint hkey hdec]
              exact Or.inr (Or.inl ⟨rfl, rfl⟩)
            | some ds =>
              rw [unlock_success_eq o m now p s key ds hlock hne hint hkey hdec]
              exact Or.inr (Or.inr ⟨rfl, rfl⟩)

/-- C6: the attempt count reaches 0 only through a fully successful
unlock (which also makes `isLocked` false at every time); every failed
path leaves the limiter either untouched or incremented by one; mere
passage of time past `lockedUntil` makes `isLocked` false while the
next recorded failure still happens at the elevated count. -/
theorem unlock_reset_only_on_success (o : CryptoOracle) (m : VaultManifest)
    (now : Nat) (p : String) (s : SystemState)
    (h : s.auth.isUnlocked = false) :
    ((unlock o m now p s).auth.isUnlocked = true →
        (unlock o m now p s).limiter = rateLimitReset ∧
        (unlock o m now p s).limiter.attempts = 0 ∧
        ∀ t, isLocked (unlock o m now p s).limiter t = false) ∧
    ((unlock o m now p s).limiter.attempts = 0 →
        s.limiter.attempts = 0 ∨ (unlock o m now p s).auth.isUnlocked = true) ∧
    (∀ t, s.limiter.lockedUntil ≤ t →
        isLocked s.limiter t = false ∧
        (recordAttempt s.limiter t).attempts = s.limiter.attempts + 1) := by
  have hc := unlock_limiter_cases o m now p s
  refine ⟨?_, ?_, ?_⟩
  · intro hu
    rcases hc with ⟨hl1, hu1⟩ | ⟨hl1, hu1⟩ | ⟨hl1, hu1⟩
    · rw [hu1, h] at hu
      cases hu
    · rw [hu1, h] at hu
      cases hu
    · rw [hl1]
      exact ⟨rfl, rfl, fun t => by simp [isLocked, rateLimitReset]⟩
  · intro ha
    rcases hc with ⟨hl1, hu1⟩ | ⟨hl1, hu1⟩ | ⟨hl1, hu1⟩
    · left
      rw [hl1] at ha
      exact ha
    · rw [hl1, recordAttempt_attempts] at ha
      exact absurd ha (Nat.succ_ne_zero _)
    · right
      exact hu1
  · intro t ht
    refine ⟨?_, recordAttempt_attempts _ _⟩
    simp only [isLocked, decide_eq_false_iff_not]
    omega

theorem unlock_reset_only_on_success_witness :
    (unlock oracleOk manifestPlain 0 "pw" systemInit).auth.isUnlocked = true ∧
    (unlock oracleOk manifestPlain 0 "pw" systemInit).limiter.attempts = 0 ∧
    isLocked (unlock oracleOk manifestPlain 0 "pw" systemInit).limiter 123456
      = false := by
  have h := unlock_reset_only_on_success oracleOk manifestPlain 0 "pw" systemInit
    (by decide)
  have hu : (unlock oracleOk manifestPlain 0 "pw" systemInit).auth.isUnlocked
      = true := by decide
  exact ⟨hu, (h.1 hu).2.1, (h.1 hu).2.2 123456⟩
